import Mathlib

/-
Verification of the SCID .sg4 move decoder against its specification.

The definitions below are a shallow embedding of the Rust sources
`experiments/scid_parser/src/position.rs` and
`experiments/scid_parser/src/sg4.rs`.  Rust `u8` arithmetic is modelled
over `Nat`/`Int` with explicit wrapping where the source can wrap;
`HashMap` fields are modelled as functions `Nat → Option _`; fallible
functions return `Except String _` exactly where the source returns
`Result<_, String>`.
-/

set_option maxRecDepth 4000

namespace Scid

/-- Chess piece colors, from `position.rs` `enum Color`. -/
inductive Color where
  | White
  | Black
deriving DecidableEq, Repr

/-- `Color::opposite`. -/
def Color.opposite : Color → Color
  | .White => .Black
  | .Black => .White

/-- Piece kinds, from `position.rs` `enum PieceType`. -/
inductive PieceType where
  | King
  | Queen
  | Rook
  | Bishop
  | Knight
  | Pawn
deriving DecidableEq, Repr

/-- Rust `{:?}` (Debug) rendering of a `PieceType`, as used in diagnostics. -/
def pieceTypeDebug : PieceType → String
  | .King => "King"
  | .Queen => "Queen"
  | .Rook => "Rook"
  | .Bishop => "Bishop"
  | .Knight => "Knight"
  | .Pawn => "Pawn"

/-- Rust `{:?}` (Debug) rendering of a `Color`. -/
def colorDebug : Color → String
  | .White => "White"
  | .Black => "Black"

/-- A chess piece, from `position.rs` `struct Piece`. -/
structure Piece where
  piece_type : PieceType
  color : Color
  id : Nat
deriving DecidableEq, Repr

/-- A board square, from `position.rs` `struct Square(pub u8)`:
square index `rank * 8 + file` (0 = a1, 63 = h8). -/
structure Square where
  val : Nat
deriving DecidableEq, Repr

/-- `Square::file`. -/
def Square.file (s : Square) : Nat := s.val % 8

/-- `Square::rank`. -/
def Square.rank (s : Square) : Nat := s.val / 8

/-- `Square::new` — rejects file or rank outside 0–7. -/
def Square.new (file rank : Nat) : Except String Square :=
  if 8 ≤ file ∨ 8 ≤ rank then
    .error ("Invalid square: file=" ++ toString file ++ ", rank=" ++ toString rank)
  else
    .ok ⟨rank * 8 + file⟩

/-- `Square::from_algebraic` — two-character file+rank text. -/
def Square.fromAlgebraic (s : String) : Except String Square :=
  match s.toList with
  | [f, r] =>
    if 'a' ≤ f ∧ f ≤ 'h' then
      if '1' ≤ r ∧ r ≤ '8' then
        .ok ⟨(r.toNat - '1'.toNat) * 8 + (f.toNat - 'a'.toNat)⟩
      else .error "Invalid rank"
    else .error "Invalid file"
  | _ => .error "Square notation must be 2 characters"

/-- Rust `.unwrap()` on square construction: the panic branch is
unreachable for every literal used by the source. -/
def unwrapSq (e : Except String Square) : Square :=
  match e with
  | .ok q => q
  | .error _ => ⟨0⟩

/-- `Square::to_algebraic`. -/
def Square.toAlgebraic (s : Square) : String :=
  String.mk [Char.ofNat (97 + s.file), Char.ofNat (49 + s.rank)]

/-- Castling availability, from `position.rs` `struct CastlingRights`. -/
structure CastlingRights where
  white_kingside : Bool
  white_queenside : Bool
  black_kingside : Bool
  black_queenside : Bool
deriving DecidableEq, Repr

/-- `CastlingRights::new` — all four rights available. -/
def CastlingRights.new : CastlingRights := ⟨true, true, true, true⟩

/-- `CastlingRights::disable_castling`. -/
def CastlingRights.disableCastling (cr : CastlingRights) (color : Color)
    (kingside : Option Bool) : CastlingRights :=
  match color, kingside with
  | .White, some true => { cr with white_kingside := false }
  | .White, some false => { cr with white_queenside := false }
  | .White, none => { cr with white_kingside := false, white_queenside := false }
  | .Black, some true => { cr with black_kingside := false }
  | .Black, some false => { cr with black_queenside := false }
  | .Black, none => { cr with black_kingside := false, black_queenside := false }

/-- A chess move, from `position.rs` `struct Move`.  The Rust fields
`from`/`to` are named `fromSq`/`toSq` here (`from` is reserved in Lean). -/
structure Move where
  fromSq : Square
  toSq : Square
  piece : Piece
  captured_piece : Option Piece
  promotion : Option PieceType
  is_castling : Bool
  is_en_passant : Bool
  gives_check : Bool
  is_checkmate : Bool
deriving DecidableEq, Repr

/-- `Move::new`. -/
def Move.new (fromSq toSq : Square) (piece : Piece) : Move :=
  ⟨fromSq, toSq, piece, none, none, false, false, false, false⟩

/-- Functional model of `HashMap::insert`. -/
def mapInsert {α : Type} (k : Nat) (v : α) (m : Nat → Option α) : Nat → Option α :=
  fun x => if x = k then some v else m x

/-- Functional model of `HashMap::remove`. -/
def mapRemove {α : Type} (k : Nat) (m : Nat → Option α) : Nat → Option α :=
  fun x => if x = k then none else m x

/-- The full position state, from `position.rs` `struct ChessPosition`.
The 8×8 board array is modelled as a map keyed by `rank * 8 + file`;
the two `HashMap` indices are modelled as functions. -/
structure ChessPosition where
  board : Nat → Option Piece
  piece_locations : Nat → Option Square
  square_occupants : Nat → Option Piece
  castling_rights : CastlingRights
  en_passant_target : Option Square
  to_move : Color
  half_moves : Nat
  full_moves : Nat
  move_history : List Move

/-- Write one board cell (`self.board[sq.rank()][sq.file()] = v`). -/
def boardSet (b : Nat → Option Piece) (sq : Square) (v : Option Piece) :
    Nat → Option Piece :=
  fun x => if x = sq.rank * 8 + sq.file then v else b x

/-- `ChessPosition::get_piece_at` — array indexing out of range panics in
Rust and is unreachable (all stored squares are 0–63); modelled as empty. -/
def getPieceAt (pos : ChessPosition) (sq : Square) : Option Piece :=
  if sq.val < 64 then pos.board (sq.rank * 8 + sq.file) else none

/-- `ChessPosition::place_piece`. -/
def placePiece (pos : ChessPosition) (sq : Square) (piece : Piece) : ChessPosition :=
  { pos with
    board := boardSet pos.board sq (some piece)
    piece_locations := mapInsert piece.id sq pos.piece_locations
    square_occupants := mapInsert sq.val piece pos.square_occupants }

/-- `ChessPosition::get_piece_by_number`. -/
def getPieceByNumber (pos : ChessPosition) (pieceNum : Nat) : Option Piece :=
  match pos.piece_locations pieceNum with
  | some sq => getPieceAt pos sq
  | none => none

/-- `ChessPosition::get_piece_location`. -/
def getPieceLocation (pos : ChessPosition) (pieceNum : Nat) : Option Square :=
  pos.piece_locations pieceNum

/-- The id table of `setup_starting_pieces`: white back rank. -/
def whiteBackRank : List (String × PieceType × Nat) :=
  [("a1", .Rook, 2), ("b1", .Knight, 11), ("c1", .Bishop, 10), ("d1", .Queen, 1),
   ("e1", .King, 0), ("f1", .Bishop, 3), ("g1", .Knight, 4), ("h1", .Rook, 9)]

/-- The id table of `setup_starting_pieces`: black back rank. -/
def blackBackRank : List (String × PieceType × Nat) :=
  [("a8", .Rook, 18), ("b8", .Knight, 27), ("c8", .Bishop, 26), ("d8", .Queen, 17),
   ("e8", .King, 16), ("f8", .Bishop, 19), ("g8", .Knight, 20), ("h8", .Rook, 25)]

/-- White pawn ids by file, from `setup_starting_pieces`. -/
def whitePawnIds : List Nat := [5, 6, 7, 8, 12, 13, 14, 15]

/-- Black pawn ids by file, from `setup_starting_pieces`. -/
def blackPawnIds : List Nat := [21, 22, 23, 24, 28, 29, 30, 31]

/-- `ChessPosition::setup_starting_pieces`. -/
def setupStartingPieces (pos : ChessPosition) : ChessPosition :=
  let pos := whiteBackRank.foldl
    (fun p e => placePiece p (unwrapSq (Square.fromAlgebraic e.1))
      ⟨e.2.1, .White, e.2.2⟩) pos
  let pos := (List.zip (List.range 8) whitePawnIds).foldl
    (fun p e => placePiece p (unwrapSq (Square.new e.1 1)) ⟨.Pawn, .White, e.2⟩) pos
  let pos := blackBackRank.foldl
    (fun p e => placePiece p (unwrapSq (Square.fromAlgebraic e.1))
      ⟨e.2.1, .Black, e.2.2⟩) pos
  (List.zip (List.range 8) blackPawnIds).foldl
    (fun p e => placePiece p (unwrapSq (Square.new e.1 6)) ⟨.Pawn, .Black, e.2⟩) pos

/-- `ChessPosition::starting_position`. -/
def startingPosition : ChessPosition :=
  setupStartingPieces
    { board := fun _ => none
      piece_locations := fun _ => none
      square_occupants := fun _ => none
      castling_rights := CastlingRights.new
      en_passant_target := none
      to_move := .White
      half_moves := 0
      full_moves := 1
      move_history := [] }

/-- `apply_castling_rook_move`. -/
def applyCastlingRookMove (pos : ChessPosition) (m : Move) : Except String ChessPosition := do
  let pair ← (match m.piece.color, m.toSq.file with
    | Color.White, 6 => do
        let a ← Square.fromAlgebraic "h1"; let b ← Square.fromAlgebraic "f1"; pure (a, b)
    | Color.White, 2 => do
        let a ← Square.fromAlgebraic "a1"; let b ← Square.fromAlgebraic "d1"; pure (a, b)
    | Color.Black, 6 => do
        let a ← Square.fromAlgebraic "h8"; let b ← Square.fromAlgebraic "f8"; pure (a, b)
    | Color.Black, 2 => do
        let a ← Square.fromAlgebraic "a8"; let b ← Square.fromAlgebraic "d8"; pure (a, b)
    | _, _ => Except.error "Invalid castling move")
  let rookFrom := pair.1
  let rookTo := pair.2
  match getPieceAt pos rookFrom with
  | some rook =>
    if rook.piece_type ≠ PieceType.Rook then
      .error ("Expected rook for castling at " ++ rookFrom.toAlgebraic ++ ", found "
        ++ pieceTypeDebug rook.piece_type)
    else if rook.color ≠ m.piece.color then
      .error ("Rook at " ++ rookFrom.toAlgebraic ++ " belongs to wrong color for castling")
    else
      .ok { pos with
        board := boardSet (boardSet pos.board rookFrom none) rookTo (some rook)
        piece_locations := mapInsert rook.id rookTo pos.piece_locations
        square_occupants := mapInsert rookTo.val rook (mapRemove rookFrom.val pos.square_occupants) }
  | none =>
    .error ("No rook found at " ++ rookFrom.toAlgebraic
      ++ " for castling - may have been captured or moved")

/-- `apply_en_passant_capture`.  The `to.rank() - 1` of the source is `u8`
arithmetic; it is modelled with `Nat` subtraction (the source only reaches
this with ranks 2–5, where both agree). -/
def applyEnPassantCapture (pos : ChessPosition) (m : Move) : Except String ChessPosition := do
  let capturedSquare ← (match m.piece.color with
    | Color.White => Square.new m.toSq.file (m.toSq.rank - 1)
    | Color.Black => Square.new m.toSq.file (m.toSq.rank + 1))
  match getPieceAt pos capturedSquare with
  | some capturedPawn =>
    .ok { pos with
      board := boardSet pos.board capturedSquare none
      piece_locations := mapRemove capturedPawn.id pos.piece_locations
      square_occupants := mapRemove capturedSquare.val pos.square_occupants }
  | none => .ok pos

/-- `apply_promotion`. -/
def applyPromotion (pos : ChessPosition) (square : Square) (pawn : Piece)
    (promotionType : PieceType) : Except String ChessPosition :=
  let promoted : Piece := ⟨promotionType, pawn.color, pawn.id⟩
  .ok { pos with
    board := boardSet pos.board square (some promoted)
    square_occupants := mapInsert square.val promoted pos.square_occupants }

/-- `update_castling_rights`. -/
def updateCastlingRightsFn (pos : ChessPosition) (m : Move) : ChessPosition :=
  let cr := pos.castling_rights
  let cr := if m.piece.piece_type = PieceType.King then
    cr.disableCastling m.piece.color none else cr
  let cr := if m.piece.piece_type = PieceType.Rook then
    cr.disableCastling m.piece.color (some (decide (4 < m.fromSq.file))) else cr
  let cr := match m.captured_piece with
    | some captured =>
      if captured.piece_type = PieceType.Rook then
        cr.disableCastling captured.color (some (decide (4 < m.toSq.file)))
      else cr
    | none => cr
  { pos with castling_rights := cr }

/-- `update_en_passant_target`. -/
def updateEnPassantTargetFn (pos : ChessPosition) (m : Move) : ChessPosition :=
  let pos := { pos with en_passant_target := none }
  if m.piece.piece_type = PieceType.Pawn then
    let rankDiff : Int := (m.toSq.rank : Int) - (m.fromSq.rank : Int)
    if rankDiff.natAbs = 2 then
      let targetRank := (m.fromSq.rank + m.toSq.rank) / 2
      match Square.new m.toSq.file targetRank with
      | .ok t => { pos with en_passant_target := some t }
      | .error _ => pos
    else pos
  else pos

/-- `ChessPosition::apply_move`. -/
def applyMove (pos : ChessPosition) (m : Move) : Except String ChessPosition :=
  match getPieceAt pos m.fromSq with
  | none => .error "No piece at source square"
  | some piece =>
    if piece.id ≠ m.piece.id then .error "Piece ID mismatch"
    else
      let pos1 := match getPieceAt pos m.toSq with
        | some captured =>
          { pos with
            piece_locations := mapRemove captured.id pos.piece_locations
            square_occupants := mapRemove m.toSq.val pos.square_occupants }
        | none => pos
      let pos2 := { pos1 with
        board := boardSet (boardSet pos1.board m.fromSq none) m.toSq (some piece) }
      let pos3 := { pos2 with
        piece_locations := mapInsert piece.id m.toSq pos2.piece_locations
        square_occupants :=
          mapInsert m.toSq.val piece (mapRemove m.fromSq.val pos2.square_occupants) }
      do
        let pos4 ← if m.is_castling then applyCastlingRookMove pos3 m else .ok pos3
        let pos5 ← if m.is_en_passant then applyEnPassantCapture pos4 m else .ok pos4
        let pos6 ← (match m.promotion with
          | some pt => applyPromotion pos5 m.toSq piece pt
          | none => .ok pos5)
        let pos7 := updateCastlingRightsFn pos6 m
        let pos8 := updateEnPassantTargetFn pos7 m
        let pos9 := { pos8 with
          half_moves :=
            if m.piece.piece_type = PieceType.Pawn ∨ m.captured_piece.isSome then 0
            else pos8.half_moves + 1 }
        let pos10 := { pos9 with
          full_moves :=
            if pos9.to_move = Color.Black then pos9.full_moves + 1 else pos9.full_moves }
        .ok { pos10 with
          to_move := pos10.to_move.opposite
          move_history := pos10.move_history ++ [m] }

/-- Number of entries of the `piece_locations` map (keys are `u8`). -/
def trackedCount (pos : ChessPosition) : Nat :=
  ((List.range 256).filter (fun id => (pos.piece_locations id).isSome)).length

/-- One direction of map consistency: the square recorded for `id` holds
an occupant whose id is `id`. -/
def consistentAt (pos : ChessPosition) (id : Nat) : Bool :=
  match pos.piece_locations id with
  | some sq =>
    (match pos.square_occupants sq.val with
     | some p => p.id == id
     | none => false)
  | none => false

/-- The other direction: the occupant recorded at a square is located
there by the id map. -/
def squareConsistentAt (pos : ChessPosition) (sq : Nat) : Bool :=
  match pos.square_occupants sq with
  | some p => pos.piece_locations p.id == some ⟨sq⟩
  | none => true

/-- `ENCODE_NAG` marker byte, from `sg4.rs`. -/
def ENCODE_NAG : Nat := 11

/-- `ENCODE_COMMENT` marker byte. -/
def ENCODE_COMMENT : Nat := 12

/-- `ENCODE_START_MARKER` marker byte. -/
def ENCODE_START_MARKER : Nat := 13

/-- `ENCODE_END_MARKER` marker byte. -/
def ENCODE_END_MARKER : Nat := 14

/-- `ENCODE_END_GAME` marker byte. -/
def ENCODE_END_GAME : Nat := 15

/-- `ENCODE_FIRST`, the lowest reserved marker byte. -/
def ENCODE_FIRST : Nat := 11

/-- `ENCODE_LAST`, the highest reserved marker byte. -/
def ENCODE_LAST : Nat := 15

/-- `MAX_TAG_LEN` from `sg4.rs`. -/
def MAX_TAG_LEN : Nat := 240

/-- `COMMON_TAG_THRESHOLD = MAX_TAG_LEN + 1`. -/
def COMMON_TAG_THRESHOLD : Nat := MAX_TAG_LEN + 1

/-- `COMMON_TAGS`: names encoded as single bytes 241–255. -/
def COMMON_TAGS : List String :=
  ["WhiteCountry", "BlackCountry", "Annotator", "PlyCount", "EventDate",
   "Opening", "Variation", "SubVariation", "ECO", "WhiteTitle",
   "BlackTitle", "WhiteElo", "BlackElo", "WhiteFideId", "BlackFideId"]

/-- A parsed PGN tag, from `sg4.rs` `struct PgnTag`. -/
structure PgnTag where
  name : String
  value : String
deriving DecidableEq, Repr

/-- Game flags, from `sg4.rs` `struct GameFlags`. -/
structure GameFlags where
  non_standard_start : Bool
  has_promotions : Bool
  has_under_promotions : Bool
  raw_value : Nat
deriving DecidableEq, Repr

/-- Decoded description of a single move byte, from `sg4.rs`
`enum MoveInterpretation`. -/
inductive MoveInterpretation where
  | King (direction_code : Nat) (description : String)
  | Queen (move_type : String) (description : String)
  | Rook (target_info : String) (description : String)
  | Bishop (direction : String) (description : String)
  | Knight (l_shape_code : Nat) (description : String)
  | Pawn (direction : String) (promotion : Option String) (description : String)
  | Unknown (reason : String)
deriving DecidableEq, Repr

/-- From `sg4.rs` `struct DecodedMove`. -/
structure DecodedMove where
  piece_num : Nat
  move_value : Nat
  raw_byte : Nat
  interpretation : MoveInterpretation
deriving DecidableEq, Repr

/-- From `sg4.rs` `enum GameElement`: one tokenized element together
with its byte offset. -/
inductive GameElement where
  | move (piece_num move_value raw_byte offset : Nat) (decoded : Option DecodedMove)
  | nag (nag_value offset : Nat)
  | comment (text : String) (offset : Nat)
  | variationStart (offset : Nat)
  | variationEnd (offset : Nat)
  | gameEnd (offset : Nat)
deriving DecidableEq, Repr

mutual

/-- From `sg4.rs` `struct VariationTree`. -/
inductive VariationTree where
  | mk (main_line : List GameNode) (current_depth : Nat)
       (variation_stack : List (List GameNode))

/-- From `sg4.rs` `struct GameNode`. -/
inductive GameNode where
  | mk (element : GameElement) (variations : List VariationTree)
       (parent : Option Nat) (move_number : Option Nat)

end

/-- Accessor for the tree's main line. -/
def VariationTree.main_line : VariationTree → List GameNode
  | .mk m _ _ => m

/-- Accessor for the tree's current nesting depth. -/
def VariationTree.current_depth : VariationTree → Nat
  | .mk _ d _ => d

/-- Accessor for the tree's stack of in-progress variation lines. -/
def VariationTree.variation_stack : VariationTree → List (List GameNode)
  | .mk _ _ s => s

/-- Accessor for a node's attached variations. -/
def GameNode.variations : GameNode → List VariationTree
  | .mk _ v _ _ => v

/-- `last_move.variations.push(variation)`. -/
def GameNode.attachVariation : GameNode → VariationTree → GameNode
  | .mk e vs p mn, v => .mk e (vs ++ [v]) p mn

/-- `VariationTree::new`. -/
def VariationTree.new : VariationTree := .mk [] 0 []

/-- `VariationTree::add_move`: append a node to the line the current
depth designates (dropped silently if the stack is empty at depth > 0). -/
def VariationTree.addMove (t : VariationTree) (element : GameElement)
    (move_number : Option Nat) : VariationTree :=
  match t with
  | .mk main depth stack =>
    let node : GameNode := .mk element [] none move_number
    if depth = 0 then .mk (main ++ [node]) depth stack
    else
      match stack.getLast? with
      | some current => .mk main depth (stack.dropLast ++ [current ++ [node]])
      | none => .mk main depth stack

/-- `VariationTree::start_variation` (the source always returns `Ok`). -/
def VariationTree.startVariation (t : VariationTree) : VariationTree :=
  match t with
  | .mk main depth stack => .mk main (depth + 1) (stack ++ [[]])

/-- `VariationTree::end_variation`: pop the completed variation and
attach it to the last node of the line that becomes current. -/
def VariationTree.endVariation (t : VariationTree) : Except String VariationTree :=
  match t with
  | .mk main depth stack =>
    if depth = 0 then .error "Cannot end variation - not in a variation"
    else
      match stack.getLast? with
      | none => .ok (.mk main (depth - 1) stack)
      | some variationMoves =>
        let stack1 := stack.dropLast
        let variation : VariationTree := .mk variationMoves 0 []
        if depth = 1 then
          match main.getLast? with
          | some lastMove =>
            .ok (.mk (main.dropLast ++ [lastMove.attachVariation variation]) (depth - 1) stack1)
          | none => .ok (.mk main (depth - 1) stack1)
        else
          match stack1.getLast? with
          | some parentVariation =>
            (match parentVariation.getLast? with
             | some lastMove =>
               .ok (.mk main (depth - 1)
                 (stack1.dropLast ++ [parentVariation.dropLast
                   ++ [lastMove.attachVariation variation]]))
             | none => .ok (.mk main (depth - 1) stack1))
          | none => .ok (.mk main (depth - 1) stack1)

/-- Parse state of one game record, from `sg4.rs` `struct GameParseState`. -/
structure GameParseState where
  tags : List PgnTag
  flags : GameFlags
  elements : List GameElement
  tags_end_offset : Nat
  flags_offset : Nat
  moves_start_offset : Nat

/-- Rust `as i8` cast of a `u8` value. -/
def toI8 (n : Nat) : Int :=
  if n % 256 < 128 then (n % 256 : Int) else (n % 256 : Int) - 256

/-- Rust `as u8` cast of an `i8`/`Int` value. -/
def u8OfInt (i : Int) : Nat := (i % 256).toNat

/-- Rust `{}` rendering of a signed integer. -/
def intStr (i : Int) : String :=
  if i < 0 then "-" ++ toString i.natAbs else toString i.natAbs

/-- `decode_king_move`: 11-entry description table for king move values. -/
def decodeKingMove (move_value : Nat) : MoveInterpretation :=
  let descriptions :=
    ["null move (stay in place)", "up-left (-9)", "up (-8)", "up-right (-7)",
     "left (-1)", "right (+1)", "down-left (+7)", "down (+8)", "down-right (+9)",
     "queenside castling (-2)", "kingside castling (+2)"]
  if move_value < descriptions.length then
    .King move_value (descriptions.getD move_value "")
  else
    .Unknown ("Invalid king move value: " ++ toString move_value)

/-- `decode_queen_move`. -/
def decodeQueenMove (move_value : Nat) : MoveInterpretation :=
  if 8 ≤ move_value then
    .Queen "rook-like vertical" ("vertical to rank " ++ toString (move_value - 8))
  else
    .Queen "rook-like horizontal or diagonal"
      ("horizontal to file " ++ toString move_value ++ " or diagonal")

/-- `decode_rook_move`. -/
def decodeRookMove (move_value : Nat) : MoveInterpretation :=
  if 8 ≤ move_value then
    .Rook ("rank " ++ toString (move_value - 8))
      ("vertical to rank " ++ toString (move_value - 8))
  else
    .Rook ("file " ++ toString move_value)
      ("horizontal to file " ++ toString move_value)

/-- `decode_bishop_move`. -/
def decodeBishopMove (move_value : Nat) : MoveInterpretation :=
  let targetFile := move_value &&& 7
  let direction := if 8 ≤ move_value then "up-left/down-right" else "up-right/down-left"
  .Bishop direction (direction ++ " diagonal to file " ++ toString targetFile)

/-- `decode_knight_move`. -/
def decodeKnightMove (move_value : Nat) : MoveInterpretation :=
  let descriptions :=
    ["invalid (0)", "L-shape (-17)", "L-shape (-15)", "L-shape (-10)", "L-shape (-6)",
     "L-shape (+6)", "L-shape (+10)", "L-shape (+15)", "L-shape (+17)"]
  if 1 ≤ move_value ∧ move_value ≤ 8 then
    .Knight move_value (descriptions.getD move_value "")
  else
    .Unknown ("Invalid knight move value: " ++ toString move_value)

/-- `decode_pawn_move`: direction/promotion description table. -/
def decodePawnMove (move_value : Nat) : MoveInterpretation :=
  let directions :=
    ["capture left", "forward", "capture right",
     "capture left+Q", "forward+Q", "capture right+Q",
     "capture left+R", "forward+R", "capture right+R",
     "capture left+B", "forward+B", "capture right+B",
     "capture left+N", "forward+N", "capture right+N",
     "double forward"]
  let promotions : List (Option String) :=
    [none, none, none,
     some "Queen", some "Queen", some "Queen",
     some "Rook", some "Rook", some "Rook",
     some "Bishop", some "Bishop", some "Bishop",
     some "Knight", some "Knight", some "Knight",
     none]
  if move_value < directions.length then
    let direction := directions.getD move_value ""
    .Pawn direction (promotions.getD move_value none) direction
  else
    .Unknown ("Invalid pawn move value: " ++ toString move_value)

/-- `decode_king_target`: regular moves via the square-difference table,
castling destinations for values 10 (kingside) and 11 (queenside). -/
def decodeKingTarget (move_value : Nat) (fromSq : Square) : Except String Square :=
  if move_value = 10 then
    match fromSq.rank with
    | 0 => Square.fromAlgebraic "g1"
    | 7 => Square.fromAlgebraic "g8"
    | _ => .error "King not on home rank for castling"
  else if move_value = 11 then
    match fromSq.rank with
    | 0 => Square.fromAlgebraic "c1"
    | 7 => Square.fromAlgebraic "c8"
    | _ => .error "King not on home rank for castling"
  else
    let squareDiffs : List Int := [0, -9, -8, -7, -1, 1, 7, 8, 9, -2, 2]
    if move_value < squareDiffs.length then
      let diff := squareDiffs.getD move_value 0
      let target : Int := toI8 fromSq.val + diff
      if 0 ≤ target ∧ target < 64 then .ok ⟨target.toNat⟩
      else
        .error ("King move out of bounds: " ++ toString fromSq.val ++ " + "
          ++ intStr diff ++ " = " ++ intStr target)
    else .error ("Invalid king move value: " ++ toString move_value)

/-- `decode_rook_target`. -/
def decodeRookTarget (move_value : Nat) (fromSq : Square) : Except String Square :=
  if 8 ≤ move_value then Square.new fromSq.file (move_value - 8)
  else Square.new move_value fromSq.rank

/-- `decode_bishop_target`: file = lower three bits, rank kept from the
source square. -/
def decodeBishopTarget (move_value : Nat) (fromSq : Square) : Except String Square :=
  Square.new (move_value &&& 7) fromSq.rank

/-- `decode_knight_target`: standard L-shape table plus the speculative
extended values 9–15. -/
def decodeKnightTarget (move_value : Nat) (fromSq : Square) : Except String Square :=
  let squareDiffs : Except String Int :=
    match move_value with
    | 0 => .ok 0
    | 1 => .ok (-17)
    | 2 => .ok (-15)
    | 3 => .ok (-10)
    | 4 => .ok (-6)
    | 5 => .ok 6
    | 6 => .ok 10
    | 7 => .ok 15
    | 8 => .ok 17
    | 9 => .ok (-33)
    | 10 => .ok (-31)
    | 11 => .ok (-19)
    | 12 => .ok (-13)
    | 13 => .ok 13
    | 14 => .ok 19
    | 15 => .ok 33
    | _ => .error ("Knight move value " ++ toString move_value ++ " exceeds maximum range")
  match squareDiffs with
  | .error e => .error e
  | .ok diff =>
    let target : Int := toI8 fromSq.val + diff
    if 0 ≤ target ∧ target < 64 then .ok ⟨target.toNat⟩
    else
      .error ("Knight move out of bounds: " ++ toString fromSq.val ++ " + "
        ++ intStr diff ++ " = " ++ intStr target)

/-- Recursion core of `decode_pawn_target`.  The `fuel` parameter only
makes the recursion structural: the source recursion has depth at most
one (values 3–14 recurse onto 0–2), so the zero-fuel branch is
unreachable from `decodePawnTarget`. -/
def decodePawnTargetGo : Nat → Nat → Square → ChessPosition → Except String Square
  | 0, _, _, _ => .error "fuel exhausted"
  | fuel + 1, move_value, fromSq, pos =>
    match getPieceAt pos fromSq with
    | none => .error "No piece at from_square for pawn move"
    | some piece =>
      let direction : Int := if piece.color = Color.White then 1 else -1
      if move_value = 0 then
        Square.new ((fromSq.file + 255) % 256) (u8OfInt ((fromSq.rank : Int) + direction))
      else if move_value = 1 then
        Square.new fromSq.file (u8OfInt ((fromSq.rank : Int) + direction))
      else if move_value = 2 then
        Square.new (fromSq.file + 1) (u8OfInt ((fromSq.rank : Int) + direction))
      else if 3 ≤ move_value ∧ move_value ≤ 5 then
        decodePawnTargetGo fuel (move_value - 3) fromSq pos
      else if 6 ≤ move_value ∧ move_value ≤ 8 then
        decodePawnTargetGo fuel (move_value - 6) fromSq pos
      else if 9 ≤ move_value ∧ move_value ≤ 11 then
        decodePawnTargetGo fuel (move_value - 9) fromSq pos
      else if 12 ≤ move_value ∧ move_value ≤ 14 then
        decodePawnTargetGo fuel (move_value - 12) fromSq pos
      else if move_value = 15 then
        Square.new fromSq.file (u8OfInt ((fromSq.rank : Int) + 2 * direction))
      else .error ("Invalid pawn move value: " ++ toString move_value)

/-- `decode_pawn_target`: direction by color; values 3–14 recurse onto
the base directions; 15 is the double push.  The source's `u8` casts are
modelled with `u8OfInt` and wrapping subtraction. -/
def decodePawnTarget (move_value : Nat) (fromSq : Square) (pos : ChessPosition) :
    Except String Square :=
  decodePawnTargetGo (move_value + 1) move_value fromSq pos

/-- `decode_queen_target`: the single-byte path reuses the rook formula. -/
def decodeQueenTarget (move_value : Nat) (fromSq : Square) (_pos : ChessPosition) :
    Except String Square :=
  decodeRookTarget move_value fromSq

/-- `decode_target_square`: dispatch on the piece type. -/
def decodeTargetSquare (piece_type : PieceType) (move_value : Nat) (fromSq : Square)
    (pos : ChessPosition) : Except String Square :=
  match piece_type with
  | .King => decodeKingTarget move_value fromSq
  | .Queen => decodeQueenTarget move_value fromSq pos
  | .Rook => decodeRookTarget move_value fromSq
  | .Bishop => decodeBishopTarget move_value fromSq
  | .Knight => decodeKnightTarget move_value fromSq
  | .Pawn => decodePawnTarget move_value fromSq pos

/-- `is_castling_move`. -/
def isCastlingMove (piece_type : PieceType) (fromSq toSq : Square) : Bool :=
  decide (piece_type = PieceType.King ∧ fromSq.file = 4 ∧ (toSq.file = 6 ∨ toSq.file = 2))

/-- `is_castling_legal`. -/
def isCastlingLegal (fromSq toSq : Square) (pos : ChessPosition) : Bool :=
  let isKingside : Bool := decide (toSq.file = 6)
  let color := match getPieceAt pos fromSq with
    | some p => p.color
    | none => Color.White
  let rookSquare : Option Square :=
    match color, isKingside with
    | Color.White, true => (Square.fromAlgebraic "h1").toOption
    | Color.White, false => (Square.fromAlgebraic "a1").toOption
    | Color.Black, true => (Square.fromAlgebraic "h8").toOption
    | Color.Black, false => (Square.fromAlgebraic "a8").toOption
  match rookSquare with
  | some rookPos =>
    (match getPieceAt pos rookPos with
     | some rook => decide (rook.piece_type = PieceType.Rook ∧ rook.color = color)
     | none => false)
  | none => false

/-- `is_en_passant_move`. -/
def isEnPassantMove (piece_type : PieceType) (fromSq toSq : Square)
    (pos : ChessPosition) : Bool :=
  decide (piece_type = PieceType.Pawn ∧ pos.en_passant_target = some toSq
    ∧ fromSq.file ≠ toSq.file)

/-- `decode_pawn_promotion`: promotion piece from the pawn move value. -/
def decodePawnPromotion (move_value : Nat) : Option PieceType :=
  if 3 ≤ move_value ∧ move_value ≤ 5 then some .Queen
  else if 6 ≤ move_value ∧ move_value ≤ 8 then some .Rook
  else if 9 ≤ move_value ∧ move_value ≤ 11 then some .Bishop
  else if 12 ≤ move_value ∧ move_value ≤ 14 then some .Knight
  else none

/-- `map_scid_piece_number_to_actual`: relative index plus side to move
to stable piece id (inputs are `u8`; values above 15 hit the wildcard). -/
def mapScidPieceNumberToActual (scid_piece_num : Nat) (to_move : Color) :
    Except String Nat :=
  match to_move with
  | .White =>
    match scid_piece_num with
    | 0 => .ok 0
    | 1 => .ok 1
    | 2 => .ok 2
    | 3 => .ok 3
    | 4 => .ok 4
    | 5 => .ok 5
    | 6 => .ok 6
    | 7 => .ok 7
    | 8 => .ok 8
    | 9 => .ok 9
    | 10 => .ok 10
    | 11 => .ok 11
    | 12 => .ok 12
    | 13 => .ok 13
    | 14 => .ok 14
    | 15 => .ok 15
    | _ => .error ("Invalid SCID piece number for White: " ++ toString scid_piece_num)
  | .Black =>
    match scid_piece_num with
    | 0 => .ok 16
    | 1 => .ok 17
    | 2 => .ok 18
    | 3 => .ok 19
    | 4 => .ok 20
    | 5 => .ok 21
    | 6 => .ok 22
    | 7 => .ok 23
    | 8 => .ok 24
    | 9 => .ok 25
    | 10 => .ok 26
    | 11 => .ok 27
    | 12 => .ok 28
    | 13 => .ok 29
    | 14 => .ok 30
    | 15 => .ok 31
    | _ => .error ("Invalid SCID piece number for Black: " ++ toString scid_piece_num)

/-- `generate_basic_algebraic_notation` (renamed: piece letter, capture
mark, destination text, promotion suffix; castling as O-O / O-O-O). -/
def generateBasicAlgebraic (m : Move) (_pos : ChessPosition) : Except String String :=
  let pieceSymbol := match m.piece.piece_type with
    | .King => "K"
    | .Queen => "Q"
    | .Rook => "R"
    | .Bishop => "B"
    | .Knight => "N"
    | .Pawn => ""
  if m.is_castling then
    .ok (if m.fromSq.file < m.toSq.file then "O-O" else "O-O-O")
  else
    let capture := if m.captured_piece.isSome then "x" else ""
    let promo := match m.promotion with
      | some .Queen => "=Q"
      | some .Rook => "=R"
      | some .Bishop => "=B"
      | some .Knight => "=N"
      | some _ => ""
      | none => ""
    .ok (pieceSymbol ++ capture ++ m.toSq.toAlgebraic ++ promo)

/-- `decode_move_with_position`: resolver, lookups, target decoding,
capture/castling/en-passant/promotion detection, text generation. -/
def decodeMoveWithPosition (piece_num move_value _raw_byte : Nat)
    (pos : ChessPosition) : Except String (Move × String) := do
  let actualPieceId ← mapScidPieceNumberToActual piece_num pos.to_move
  let piece ← (match getPieceByNumber pos actualPieceId with
    | some p => Except.ok p
    | none => Except.error ("Piece #" ++ toString actualPieceId ++ " (SCID #"
        ++ toString piece_num ++ ") not found on board - position tracking error"))
  let fromSquare ← (match getPieceLocation pos actualPieceId with
    | some s => Except.ok s
    | none => Except.error ("Location of piece #" ++ toString actualPieceId
        ++ " (SCID #" ++ toString piece_num ++ ") not tracked"))
  let toSquare ← decodeTargetSquare piece.piece_type move_value fromSquare pos
  let m := Move.new fromSquare toSquare piece
  let m := match getPieceAt pos toSquare with
    | some capturedPiece => { m with captured_piece := some capturedPiece }
    | none => m
  let m := { m with
    is_castling := isCastlingMove piece.piece_type fromSquare toSquare
      && isCastlingLegal fromSquare toSquare pos
    is_en_passant := isEnPassantMove piece.piece_type fromSquare toSquare pos }
  let m := if piece.piece_type = PieceType.Pawn then
    { m with promotion := decodePawnPromotion move_value } else m
  let alg ← generateBasicAlgebraic m pos
  .ok (m, alg)

/-- `needs_queen_second_byte`. -/
def needsQueenSecondByte (move_value first_byte : Nat) : Bool :=
  decide (8 ≤ move_value ∧ first_byte &&& 128 = 0)

/-- `needs_king_second_byte`. -/
def needsKingSecondByte (move_value : Nat) : Bool :=
  decide (12 ≤ move_value)

/-- `needs_pawn_second_byte`. -/
def needsPawnSecondByte (move_value : Nat) : Bool :=
  decide (14 ≤ move_value)

/-- `needs_rare_third_byte`. -/
def needsRareThirdByte (piece_num move_value first_byte : Nat) : Bool :=
  decide (piece_num ≤ 1 ∧ 14 ≤ move_value ∧ first_byte &&& 240 = 16)

/-- `is_valid_second_move_byte`: not in the reserved marker range. -/
def isValidSecondMoveByte (b : Nat) : Bool :=
  decide (b < ENCODE_FIRST ∨ ENCODE_LAST < b)

/-- `is_valid_third_move_byte`. -/
def isValidThirdMoveByte (b : Nat) : Bool :=
  isValidSecondMoveByte b

/-- One-digit uppercase hexadecimal character. -/
def hexDigit (n : Nat) : Char :=
  Char.ofNat (if n < 10 then 48 + n else 55 + n)

/-- Rust `{:02X}` rendering. -/
def natToHex2 (n : Nat) : String :=
  String.mk [hexDigit (n / 16 % 16), hexDigit (n % 16)]

/-- Rust `{:04X}` rendering. -/
def natToHex4 (n : Nat) : String :=
  String.mk [hexDigit (n / 4096 % 16), hexDigit (n / 256 % 16),
             hexDigit (n / 16 % 16), hexDigit (n % 16)]

/-- `parse_multi_byte_move`: decide how many bytes (1–3) the move at
`startPos` occupies and collect them. -/
def parseMultiByteMove (data : List Nat) (startPos piece_num move_value : Nat) :
    Except String (Nat × List Nat) :=
  if data.length ≤ startPos then
    .error "Invalid start position for multi-byte move parsing"
  else
    let firstByte := data.getD startPos 0
    match piece_num with
    | 1 =>
      if needsQueenSecondByte move_value firstByte then
        if startPos + 1 < data.length then
          let second := data.getD (startPos + 1) 0
          if isValidSecondMoveByte second then .ok (2, [firstByte, second])
          else .ok (1, [firstByte])
        else .ok (1, [firstByte])
      else .ok (1, [firstByte])
    | 0 =>
      if needsKingSecondByte move_value then
        if startPos + 1 < data.length then
          let second := data.getD (startPos + 1) 0
          if isValidSecondMoveByte second then .ok (2, [firstByte, second])
          else .ok (1, [firstByte])
        else .ok (1, [firstByte])
      else .ok (1, [firstByte])
    | 5 | 6 | 7 | 8 | 12 | 13 | 14 | 15 =>
      if needsPawnSecondByte move_value then
        if startPos + 1 < data.length then
          let second := data.getD (startPos + 1) 0
          if isValidSecondMoveByte second then .ok (2, [firstByte, second])
          else .ok (1, [firstByte])
        else .ok (1, [firstByte])
      else .ok (1, [firstByte])
    | _ =>
      if needsRareThirdByte piece_num move_value firstByte then
        if startPos + 2 < data.length then
          let second := data.getD (startPos + 1) 0
          let third := data.getD (startPos + 2) 0
          if isValidSecondMoveByte second ∧ isValidThirdMoveByte third then
            .ok (3, [firstByte, second, third])
          else .ok (1, [firstByte])
        else .ok (1, [firstByte])
      else .ok (1, [firstByte])

/-- `try_decode_move`: single-byte heuristic interpretation. -/
def tryDecodeMove (piece_num move_value raw_byte : Nat) : Option DecodedMove :=
  let interp := match piece_num with
    | 0 => decodeKingMove move_value
    | 1 | 7 => decodeQueenMove move_value
    | 2 | 9 => decodeRookMove move_value
    | 3 | 10 => decodeBishopMove move_value
    | 4 | 11 => decodeKnightMove move_value
    | 5 | 6 | 8 | 12 | 13 | 14 | 15 => decodePawnMove move_value
    | _ => .Unknown ("Piece " ++ toString piece_num ++ " interpretation uncertain")
  some ⟨piece_num, move_value, raw_byte, interp⟩

/-- `decode_queen_multi_byte`. -/
def decodeQueenMultiByte (move_value first_byte second_byte : Nat) : Option DecodedMove :=
  let extendedTarget := ((first_byte % 256) <<< 8) ||| (second_byte % 256)
  let targetFile := extendedTarget &&& 15
  let targetRank := (extendedTarget >>> 4) &&& 15
  if targetFile < 8 ∧ targetRank < 8 then
    some ⟨1, move_value, first_byte,
      .Queen "2-byte diagonal"
        ("2-byte diagonal to " ++ String.mk [Char.ofNat (97 + targetFile)]
          ++ String.mk [Char.ofNat (49 + targetRank)]
          ++ " (Extended target: 0x" ++ natToHex4 extendedTarget ++ ")")⟩
  else none

/-- `decode_king_multi_byte`. -/
def decodeKingMultiByte (move_value first_byte second_byte : Nat) : Option DecodedMove :=
  some ⟨0, move_value,
    first_byte,
    .King move_value
      ("2-byte King move (bytes: 0x" ++ natToHex2 first_byte ++ " 0x"
        ++ natToHex2 second_byte ++ ")")⟩

/-- `decode_pawn_multi_byte`. -/
def decodePawnMultiByte (move_value first_byte second_byte : Nat) : Option DecodedMove :=
  let promotionType :=
    if second_byte &&& 15 ≤ 3 then "Queen"
    else if second_byte &&& 15 ≤ 7 then "Rook"
    else if second_byte &&& 15 ≤ 11 then "Bishop"
    else "Knight"
  some ⟨12, move_value, first_byte,
    .Pawn "2-byte promotion" (some promotionType)
      ("2-byte promotion to " ++ promotionType ++ " (bytes: 0x" ++ natToHex2 first_byte
        ++ " 0x" ++ natToHex2 second_byte ++ ")")⟩

/-- `decode_rare_three_byte_move`. -/
def decodeRareThreeByteMove (piece_num move_value : Nat) (move_bytes : List Nat) :
    Option DecodedMove :=
  some ⟨piece_num, move_value, move_bytes.getD 0 0,
    .Unknown ("3-byte move (piece: " ++ toString piece_num ++ ", value: "
      ++ toString move_value ++ ", bytes: ["
      ++ String.intercalate ", " (move_bytes.map natToHex2) ++ "])")⟩

/-- `try_decode_multi_byte_move`. -/
def tryDecodeMultiByteMove (piece_num move_value : Nat) (move_bytes : List Nat) :
    Option DecodedMove :=
  if move_bytes.length < 2 then
    tryDecodeMove piece_num move_value (move_bytes.getD 0 0)
  else
    let firstByte := move_bytes.getD 0 0
    let secondByte := move_bytes.getD 1 0
    match piece_num with
    | 1 => decodeQueenMultiByte move_value firstByte secondByte
    | 0 => decodeKingMultiByte move_value firstByte secondByte
    | 5 | 6 | 7 | 8 | 12 | 13 | 14 | 15 =>
      decodePawnMultiByte move_value firstByte secondByte
    | _ =>
      if 3 ≤ move_bytes.length then
        decodeRareThreeByteMove piece_num move_value move_bytes
      else
        tryDecodeMove piece_num move_value firstByte

/-- First index (relative) of a zero byte in a byte list. -/
def findZeroRel : List Nat → Option Nat
  | [] => none
  | b :: rest => if b = 0 then some 0 else (findZeroRel rest).map (· + 1)

/-- Model of `String::from_utf8_lossy` restricted to the byte-as-char view. -/
def bytesToString (bs : List Nat) : String :=
  String.mk (bs.map Char.ofNat)

/-- Recursion core of the tag loop of `parse_pgn_tags`.  The position
advances by at least one each iteration, so fuel `data.length + 1` (as
supplied by `tagsLoop`) can never run out before the loop exits. -/
def tagsLoopGo : Nat → List Nat → Nat → List PgnTag →
    Except String (List PgnTag × Nat)
  | 0, _, _, _ => .error "fuel exhausted"
  | fuel + 1, data, pos, acc =>
  if pos < data.length then
    let b := data.getD pos 0
    if b = 0 then .ok (acc, pos + 1)
    else if b = 255 then
      if data.length < pos + 1 + 3 then
        .error "Insufficient data for binary EventDate encoding"
      else tagsLoopGo fuel data (pos + 4) acc
    else if COMMON_TAG_THRESHOLD ≤ b then
      let idx := b - COMMON_TAG_THRESHOLD
      if COMMON_TAGS.length ≤ idx then
        .error ("Invalid common tag index: " ++ toString idx)
      else
        let tagName := COMMON_TAGS.getD idx ""
        if data.length ≤ pos + 1 then .error "Missing value length byte"
        else
          let valueLen := data.getD (pos + 1) 0
          if data.length < pos + 2 + valueLen then
            .error "Insufficient data for tag value"
          else
            let tagValue := bytesToString ((data.drop (pos + 2)).take valueLen)
            tagsLoopGo fuel data (pos + 2 + valueLen) (acc ++ [⟨tagName, tagValue⟩])
    else
      let tagLen := b
      if data.length < pos + 1 + tagLen then .error "Insufficient data for tag name"
      else
        let tagName := bytesToString ((data.drop (pos + 1)).take tagLen)
        if data.length ≤ pos + 1 + tagLen then .error "Missing value length byte"
        else
          let valueLen := data.getD (pos + 1 + tagLen) 0
          if data.length < pos + 1 + tagLen + 1 + valueLen then
            .error "Insufficient data for tag value"
          else
            let tagValue := bytesToString ((data.drop (pos + 1 + tagLen + 1)).take valueLen)
            tagsLoopGo fuel data (pos + 1 + tagLen + 1 + valueLen) (acc ++ [⟨tagName, tagValue⟩])
  else .ok (acc, pos)

/-- The tag section loop of `parse_pgn_tags`: consume tags until the
zero terminator, returning the tags and the position after it. -/
def tagsLoop (data : List Nat) (pos : Nat) (acc : List PgnTag) :
    Except String (List PgnTag × Nat) :=
  tagsLoopGo (data.length + 1) data pos acc

/-- Recursion core of the element loop of `parse_pgn_tags`.  The
position advances by at least one each iteration, so fuel
`data.length + 1` (as supplied by `elementsLoop`) can never run out
before the loop exits. -/
def elementsLoopGo : Nat → List Nat → Nat → Except String (List GameElement)
  | 0, _, _ => .error "fuel exhausted"
  | fuel + 1, data, pos =>
  if pos < data.length then
    let byteVal := data.getD pos 0
    if byteVal = ENCODE_END_GAME then .ok [.gameEnd pos]
    else if byteVal = ENCODE_NAG then
      if data.length ≤ pos + 1 then .error "Missing NAG value byte"
      else
        match elementsLoopGo fuel data (pos + 2) with
        | .ok rest => .ok (.nag (data.getD (pos + 1) 0) pos :: rest)
        | .error e => .error e
    else if byteVal = ENCODE_COMMENT then
      match findZeroRel (data.drop (pos + 1)) with
      | none => .error "Unterminated comment string"
      | some k =>
        let text := bytesToString ((data.drop (pos + 1)).take k)
        match elementsLoopGo fuel data (pos + 1 + k + 1) with
        | .ok rest => .ok (.comment text pos :: rest)
        | .error e => .error e
    else if byteVal = ENCODE_START_MARKER then
      match elementsLoopGo fuel data (pos + 1) with
      | .ok rest => .ok (.variationStart pos :: rest)
      | .error e => .error e
    else if byteVal = ENCODE_END_MARKER then
      match elementsLoopGo fuel data (pos + 1) with
      | .ok rest => .ok (.variationEnd pos :: rest)
      | .error e => .error e
    else
      let pieceNum := (byteVal >>> 4) &&& 15
      let moveValue := byteVal &&& 15
      match parseMultiByteMove data pos pieceNum moveValue with
      | .error e => .error e
      | .ok (bytesConsumed, moveBytes) =>
        let decoded :=
          if 1 < moveBytes.length then tryDecodeMultiByteMove pieceNum moveValue moveBytes
          else tryDecodeMove pieceNum moveValue byteVal
        let skip := if 1 < bytesConsumed then bytesConsumed - 1 else 0
        match elementsLoopGo fuel data (pos + 1 + skip) with
        | .ok rest => .ok (.move pieceNum moveValue byteVal pos decoded :: rest)
        | .error e => .error e
  else .ok []

/-- The move/annotation loop of `parse_pgn_tags`: tokenize elements
until `ENCODE_END_GAME` or the end of the data. -/
def elementsLoop (data : List Nat) (pos : Nat) : Except String (List GameElement) :=
  elementsLoopGo (data.length + 1) data pos

/-- `parse_pgn_tags`: tags section, flags byte, then the element loop. -/
def parsePgnTags (game_data : List Nat) : Except String GameParseState :=
  match tagsLoop game_data 0 [] with
  | .error e => .error e
  | .ok (tags, tagsEnd) =>
    if game_data.length ≤ tagsEnd then .error "Missing game flags byte after tags"
    else
      let flagsByte := game_data.getD tagsEnd 0
      let flags : GameFlags :=
        ⟨decide (flagsByte &&& 1 ≠ 0), decide (flagsByte &&& 2 ≠ 0),
         decide (flagsByte &&& 4 ≠ 0), flagsByte⟩
      match elementsLoop game_data (tagsEnd + 1) with
      | .error e => .error e
      | .ok elements =>
        .ok ⟨tags, flags, elements, tagsEnd, tagsEnd, tagsEnd + 1⟩

/-- The diagnostic record emitted by `parse_game_with_position_tracking`
for a move whose decoding fails: exactly the data of its warning line
(ordinal move number, piece number, move value, a description of the
piece the resolver points at, and the error text). -/
structure Diag where
  move_number : Nat
  piece_num : Nat
  move_value : Nat
  piece_info : String
  err : String
deriving DecidableEq, Repr

/-- Build the diagnostic for a failed move decode, mirroring the
warning line of `parse_game_with_position_tracking`. -/
def mkDiag (pos : ChessPosition) (cnt piece_num move_value : Nat) (e : String) : Diag :=
  let actualPieceId := match mapScidPieceNumberToActual piece_num pos.to_move with
    | .ok i => i
    | .error _ => piece_num
  let pieceInfo := match getPieceByNumber pos actualPieceId with
    | some p => colorDebug p.color ++ " " ++ pieceTypeDebug p.piece_type
    | none => "Unknown"
  ⟨cnt + 1, piece_num, move_value, pieceInfo, e⟩

/-- The element-processing loop of `parse_game_with_position_tracking`:
decode each move against the running position, apply it, and skip (with
a diagnostic) any move whose decoding fails; a failure of `apply_move`
aborts; `GameEnd` stops the loop; other elements are passed over. -/
def parseElements (pos : ChessPosition) (cnt : Nat) :
    List GameElement → Except String (List Move × List String × List Diag)
  | [] => .ok ([], [], [])
  | el :: rest =>
    match el with
    | .move piece_num move_value raw_byte _offset _decoded =>
      (match decodeMoveWithPosition piece_num move_value raw_byte pos with
       | .ok (chessMove, alg) =>
         (match applyMove pos chessMove with
          | .ok pos1 =>
            (match parseElements pos1 (cnt + 1) rest with
             | .ok (ms, ns, ds) => .ok (chessMove :: ms, alg :: ns, ds)
             | .error e => .error e)
          | .error e =>
            .error ("Failed to apply move " ++ toString (cnt + 1) ++ ": " ++ e))
       | .error e =>
         (match parseElements pos (cnt + 1) rest with
          | .ok (ms, ns, ds) => .ok (ms, ns, mkDiag pos cnt piece_num move_value e :: ds)
          | .error e2 => .error e2))
    | .gameEnd _ => .ok ([], [], [])
    | _ => parseElements pos cnt rest

/-- `parse_game_with_position_tracking`: tokenize one game record and
run the element loop from the standard starting position.  The decoded
moves, the rendered move texts, and the recorded decode diagnostics are
returned. -/
def parseGameWithPositionTracking (game_data : List Nat) :
    Except String (List Move × List String × List Diag) :=
  match parsePgnTags game_data with
  | .error e => .error e
  | .ok gs => parseElements startingPosition 0 gs.elements

/-- Byte offsets of the move elements of an element list. -/
def moveOffsets (els : List GameElement) : List Nat :=
  els.filterMap (fun e => match e with
    | .move _ _ _ off _ => some off
    | _ => none)

/-- The diagnostics component of a game-parse result. -/
def diagsOf (r : Except String (List Move × List String × List Diag)) :
    Option (List Diag) :=
  r.toOption.map (fun t => t.2.2)

/-- The SCID move-byte encoder formula quoted in `sg4.rs`
(`makeMoveByte`): `((pieceNum & 15) << 4) | (value & 15)`. -/
def makeMoveByte (pieceNum value : Nat) : Nat :=
  ((pieceNum &&& 15) <<< 4) ||| (value &&& 15)

/-- Membership in the reserved marker byte range 11–15. -/
def isMarkerByte (b : Nat) : Bool := decide (ENCODE_FIRST ≤ b ∧ b ≤ ENCODE_LAST)

/-- Entry of the king square-difference table of `decode_king_target`
(indices 0–9 as reachable through its fall-through branch). -/
def kingDelta (v : Nat) : Int :=
  ([0, -9, -8, -7, -1, 1, 7, 8, 9, -2] : List Int).getD v 0

/-- The destination of a king move value as the amended claim C2 states
it: values 0–9 add the table delta to the source index (out-of-board is
an error), value 10 is the g-file home-rank castling destination with a
home-rank check.  Written from the amended claim's words, to be compared
with `decodeKingTarget`. -/
def kingTargetAmendedSpec (v f : Nat) : Option Nat :=
  if v = 10 then
    if f / 8 = 0 then some 6 else if f / 8 = 7 then some 62 else none
  else
    let t : Int := (f : Int) + kingDelta v
    if 0 ≤ t ∧ t < 64 then some t.toNat else none

/-- Pawn rank direction by color, as the claim states it. -/
def pawnDir : Color → Int
  | .White => 1
  | .Black => -1

/-- Promotion piece for pawn move values 3–14, as the claim states it
(three consecutive values per piece: Queen, Rook, Bishop, Knight). -/
def promoPieceFor (v : Nat) : PieceType :=
  if v ≤ 5 then .Queen else if v ≤ 8 then .Rook
  else if v ≤ 11 then .Bishop else .Knight

/-- A sample tree node used by concrete variation-tree instances. -/
def sampleNodeA : GameNode := .mk (.gameEnd 0) [] none none

/-- A second sample tree node. -/
def sampleNodeB : GameNode := .mk (.nag 1 0) [] none none

/-- Game record: empty tag section, zero flags byte, one king move byte
`0x01` (a decode error on the starting position: e1 − 9 is off board),
end-of-game marker.  The move element sits at byte offset 2. -/
def C1gameA : List Nat := [0, 0, 1, 15]

/-- The same record with a NAG annotation inserted before the failing
move, which shifts the move element's byte offset from 2 to 4. -/
def C1gameB : List Nat := [0, 0, 11, 5, 1, 15]

end Scid

deriving instance DecidableEq for Except

namespace Scid

/-- Inversion of `Square.new`: success implies file and rank are in
range and the square index is `rank * 8 + file`. -/
theorem squareNewOk (f r : Nat) (sq : Square) (h : Square.new f r = Except.ok sq) :
    f < 8 ∧ r < 8 ∧ sq.val = r * 8 + f := by
  unfold Square.new at h
  split at h
  · exact (Except.noConfusion h)
  · next hc =>
    injection h with h
    subst h
    push_neg at hc
    exact ⟨by omega, by omega, rfl⟩

/-- The `as u8` cast of `rank + d` is faithful whenever the result is a
board rank: a wrapped value would be at least 254. -/
theorem u8OfIntRank (rank : Nat) (d : Int) (hrank : rank < 8)
    (hd : -2 ≤ d ∧ d ≤ 2) (hlt : u8OfInt ((rank : Int) + d) < 8) :
    (u8OfInt ((rank : Int) + d) : Int) = (rank : Int) + d := by
  unfold u8OfInt at hlt ⊢
  omega

end Scid

namespace Scid

/-- Claim C1 (counterexample): the diagnostic recorded for a move whose
decoding fails does not carry the element's byte offset.  Two game
records whose (only, failing) move element sits at byte offset 2 and at
byte offset 4 respectively produce identical diagnostic lists, while
both parses succeed and record exactly one diagnostic. -/
theorem C1_counterexample :
    diagsOf (parseGameWithPositionTracking C1gameA) =
      diagsOf (parseGameWithPositionTracking C1gameB) ∧
    (diagsOf (parseGameWithPositionTracking C1gameA)).map List.length = some 1 ∧
    (parsePgnTags C1gameA).toOption.map (fun gs => moveOffsets gs.elements) = some [2] ∧
    (parsePgnTags C1gameB).toOption.map (fun gs => moveOffsets gs.elements) = some [4] :=
  ⟨by rfl, by rfl, by rfl, by rfl⟩

/-- Claim C1 (amended): when decoding a move element fails with a decode
error, the game-level element loop does not fail there: the move is
skipped (it contributes no move and no move text), a diagnostic carrying
the move's ordinal number, piece number, move value and error text — not
its byte offset — is recorded, and processing continues with the next
element of the same game against the unchanged position. -/
theorem C1_amended (pos : ChessPosition) (cnt piece_num move_value raw_byte offset : Nat)
    (decoded : Option DecodedMove) (rest : List GameElement) (e : String)
    (h : decodeMoveWithPosition piece_num move_value raw_byte pos = .error e) :
    parseElements pos cnt
        (GameElement.move piece_num move_value raw_byte offset decoded :: rest) =
      (parseElements pos (cnt + 1) rest).map
        (fun r => (r.1, r.2.1, mkDiag pos cnt piece_num move_value e :: r.2.2)) := by
  simp only [parseElements, h]
  cases hrec : parseElements pos (cnt + 1) rest with
  | ok r => rcases r with ⟨ms, ns, ds⟩; rfl
  | error e2 => rfl

/-- Witness for C1_amended: the king move byte `0x01` on the starting
position is a decode error (e1 − 9 is off board), and the element loop
skips it, records its diagnostic, and continues. -/
theorem C1_amended_witness :
    decodeMoveWithPosition 0 1 1 startingPosition =
      .error "King move out of bounds: 4 + -9 = -5" ∧
    parseElements startingPosition 0 [GameElement.move 0 1 1 2 none, GameElement.gameEnd 3] =
      (parseElements startingPosition 1 [GameElement.gameEnd 3]).map
        (fun r => (r.1, r.2.1,
          mkDiag startingPosition 0 0 1 "King move out of bounds: 4 + -9 = -5" :: r.2.2)) :=
  ⟨by rfl,
   C1_amended startingPosition 0 0 1 1 2 none [GameElement.gameEnd 3] _ (by rfl)⟩

/-- Claim C2 (counterexample): with the king on d4 (square 27), move
value 9 decodes to square 25 (b4), which is not on the c-file and not on
either home rank — not the queenside-castling destination the claim
requires. -/
theorem C2_counterexample :
    decodeKingTarget 9 ⟨27⟩ = Except.ok ⟨25⟩ ∧ Square.file ⟨25⟩ ≠ 2 ∧
    Square.rank ⟨25⟩ ≠ 0 ∧ Square.rank ⟨25⟩ ≠ 7 := by decide

/-- Claim C2 (amended): for every source square and move value 0–10, the
king target decoder returns exactly what `kingTargetAmendedSpec` states:
value 0 the source itself, values 1–8 the adjacent-square deltas, value
9 the source minus two (no home-rank check), value 10 the g-file
home-rank castling destination (error off the home ranks); a delta
destination outside 0–63 is an error. -/
theorem C2_amended (f : Nat) (hf : f < 64) (v : Nat) (hv : v < 11) :
    (decodeKingTarget v ⟨f⟩).toOption = (kingTargetAmendedSpec v f).map Square.mk :=
  (by decide :
    ∀ f, f < 64 → ∀ v, v < 11 →
      (decodeKingTarget v ⟨f⟩).toOption = (kingTargetAmendedSpec v f).map Square.mk)
    f hf v hv

/-- Witness for C2_amended at the counterexample's input (f = 27, v = 9). -/
theorem C2_amended_witness :
    (27 : Nat) < 64 ∧ (9 : Nat) < 11 ∧
    (decodeKingTarget 9 ⟨27⟩).toOption = (kingTargetAmendedSpec 9 27).map Square.mk :=
  ⟨by decide, by decide, C2_amended 27 (by decide) 9 (by decide)⟩

/-- Claim C3: every move byte built from piece index 0 (the side's king)
and a move value 0–10 avoids the reserved marker range 11–15, its upper
and lower nibbles recover index 0 and the value, and the tokenizer
classifies it as a move element with piece number 0 and that value. -/
theorem C3_marker_safety : ∀ v, v < 11 →
    isMarkerByte (makeMoveByte 0 v) = false ∧
    (makeMoveByte 0 v) >>> 4 &&& 15 = 0 ∧ (makeMoveByte 0 v) &&& 15 = v ∧
    elementsLoop [makeMoveByte 0 v, ENCODE_END_GAME] 0 =
      .ok [GameElement.move 0 v (makeMoveByte 0 v) 0 (tryDecodeMove 0 v (makeMoveByte 0 v)),
           GameElement.gameEnd 1] := by decide

/-- Witness for C3_marker_safety at the boundary value 10. -/
theorem C3_witness :
    isMarkerByte (makeMoveByte 0 10) = false ∧
    (makeMoveByte 0 10) >>> 4 &&& 15 = 0 ∧ (makeMoveByte 0 10) &&& 15 = 10 ∧
    elementsLoop [makeMoveByte 0 10, ENCODE_END_GAME] 0 =
      .ok [GameElement.move 0 10 (makeMoveByte 0 10) 0
             (tryDecodeMove 0 10 (makeMoveByte 0 10)),
           GameElement.gameEnd 1] :=
  C3_marker_safety 10 (by decide)

/-- Claim C4: over the whole `u8` input range, the piece-number resolver
maps 0–15 to the index itself for White and to the index plus 16 for
Black, and rejects every input 16–255 for either side. -/
theorem C4_resolver : ∀ n, n < 256 →
    (n < 16 → mapScidPieceNumberToActual n Color.White = .ok n ∧
      mapScidPieceNumberToActual n Color.Black = .ok (n + 16)) ∧
    (16 ≤ n → (mapScidPieceNumberToActual n Color.White).toOption = none ∧
      (mapScidPieceNumberToActual n Color.Black).toOption = none) := by decide

/-- Witness for C4_resolver at inputs 5 (Black) and 200 (White). -/
theorem C4_witness :
    mapScidPieceNumberToActual 5 Color.Black = .ok 21 ∧
    (mapScidPieceNumberToActual 200 Color.White).toOption = none :=
  ⟨((C4_resolver 5 (by decide)).1 (by decide)).2,
   ((C4_resolver 200 (by decide)).2 (by decide)).1⟩

/-- Claim C5: pawn move values 3–14 decode to the same destination as
their value-mod-3 base direction and carry the promotion piece of their
three-value block (Queen 3–5, Rook 6–8, Bishop 9–11, Knight 12–14);
values 0/1/2/15 carry no promotion; the base directions move one rank in
the pawn's color direction with file −1 / 0 / +1, and value 15 moves two
ranks on the same file. -/
theorem C5_pawn_decode (pos : ChessPosition) (fromSq : Square) (p : Piece)
    (h : getPieceAt pos fromSq = some p) (hsq : fromSq.val < 64) :
    (∀ v, 3 ≤ v → v ≤ 14 →
      decodePawnTarget v fromSq pos = decodePawnTarget (v % 3) fromSq pos ∧
      decodePawnPromotion v = some (promoPieceFor v)) ∧
    (decodePawnPromotion 0 = none ∧ decodePawnPromotion 1 = none ∧
      decodePawnPromotion 2 = none ∧ decodePawnPromotion 15 = none) ∧
    (∀ sq, decodePawnTarget 0 fromSq pos = .ok sq →
      (sq.file : Int) = (fromSq.file : Int) - 1 ∧
      (sq.rank : Int) = (fromSq.rank : Int) + pawnDir p.color) ∧
    (∀ sq, decodePawnTarget 1 fromSq pos = .ok sq →
      sq.file = fromSq.file ∧
      (sq.rank : Int) = (fromSq.rank : Int) + pawnDir p.color) ∧
    (∀ sq, decodePawnTarget 2 fromSq pos = .ok sq →
      (sq.file : Int) = (fromSq.file : Int) + 1 ∧
      (sq.rank : Int) = (fromSq.rank : Int) + pawnDir p.color) ∧
    (∀ sq, decodePawnTarget 15 fromSq pos = .ok sq →
      sq.file = fromSq.file ∧
      (sq.rank : Int) = (fromSq.rank : Int) + 2 * pawnDir p.color) := by
  have hrank : fromSq.rank < 8 := by
    simp only [Square.rank]; omega
  have hfile : fromSq.file < 8 := by
    simp only [Square.file]; omega
  refine ⟨?_, by decide, ?_, ?_, ?_, ?_⟩
  · intro v h3 h14
    constructor
    · interval_cases v <;> simp [decodePawnTarget, decodePawnTargetGo, h]
    · interval_cases v <;> decide
  · intro sq hok
    have hok' : Square.new ((fromSq.file + 255) % 256)
        (u8OfInt ((fromSq.rank : Int) + pawnDir p.color)) = .ok sq := by
      cases hc : p.color <;>
        simpa [decodePawnTarget, decodePawnTargetGo, h, hc, pawnDir] using hok
    obtain ⟨hf, hr, hval⟩ := squareNewOk _ _ _ hok'
    have hd := u8OfIntRank fromSq.rank (pawnDir p.color) hrank
      (by cases p.color <;> simp [pawnDir]) hr
    constructor
    · simp only [Square.file] at *
      omega
    · simp only [Square.rank] at *
      omega
  · intro sq hok
    have hok' : Square.new fromSq.file
        (u8OfInt ((fromSq.rank : Int) + pawnDir p.color)) = .ok sq := by
      cases hc : p.color <;>
        simpa [decodePawnTarget, decodePawnTargetGo, h, hc, pawnDir] using hok
    obtain ⟨hf, hr, hval⟩ := squareNewOk _ _ _ hok'
    have hd := u8OfIntRank fromSq.rank (pawnDir p.color) hrank
      (by cases p.color <;> simp [pawnDir]) hr
    constructor
    · simp only [Square.file] at *
      omega
    · simp only [Square.rank] at *
      omega
  · intro sq hok
    have hok' : Square.new (fromSq.file + 1)
        (u8OfInt ((fromSq.rank : Int) + pawnDir p.color)) = .ok sq := by
      cases hc : p.color <;>
        simpa [decodePawnTarget, decodePawnTargetGo, h, hc, pawnDir] using hok
    obtain ⟨hf, hr, hval⟩ := squareNewOk _ _ _ hok'
    have hd := u8OfIntRank fromSq.rank (pawnDir p.color) hrank
      (by cases p.color <;> simp [pawnDir]) hr
    constructor
    · simp only [Square.file] at *
      omega
    · simp only [Square.rank] at *
      omega
  · intro sq hok
    have hok' : Square.new fromSq.file
        (u8OfInt ((fromSq.rank : Int) + 2 * pawnDir p.color)) = .ok sq := by
      cases hc : p.color <;>
        simpa [decodePawnTarget, decodePawnTargetGo, h, hc, pawnDir] using hok
    obtain ⟨hf, hr, hval⟩ := squareNewOk _ _ _ hok'
    have hd := u8OfIntRank fromSq.rank (2 * pawnDir p.color) hrank
      (by cases p.color <;> simp [pawnDir]) hr
    constructor
    · simp only [Square.file] at *
      omega
    · simp only [Square.rank] at *
      omega

/-- Witness for C5_pawn_decode: the e2 pawn of the starting position at
move value 4 (forward with Queen promotion) decodes to the same square
as value 1 and carries a Queen promotion. -/
theorem C5_witness :
    decodePawnTarget 4 ⟨12⟩ startingPosition = decodePawnTarget 1 ⟨12⟩ startingPosition ∧
    decodePawnPromotion 4 = some (promoPieceFor 4) :=
  (C5_pawn_decode startingPosition ⟨12⟩ ⟨PieceType.Pawn, Color.White, 12⟩
    (by rfl) (by decide)).1 4 (by decide) (by decide)

/-- Claim C6: the starting position tracks exactly 32 pieces; every
tracked id's recorded square holds an occupant with that id, and every
occupied square's occupant is located there by the id map. -/
theorem C6_starting_position :
    trackedCount startingPosition = 32 ∧
    (∀ id, id < 256 → (startingPosition.piece_locations id).isSome = true →
      consistentAt startingPosition id = true) ∧
    (∀ sq, sq < 64 → squareConsistentAt startingPosition sq = true) := by decide

/-- Witness for C6_starting_position at id 0 (the white king). -/
theorem C6_witness : consistentAt startingPosition 0 = true :=
  C6_starting_position.2.1 0 (by decide) (by decide)

/-- Claim C7: on the starting position with White to move, the move byte
encoding piece index 12 and move value 15 (byte 207) decodes to a pawn
double push from e2 to e4, with no capture and no promotion. -/
theorem C7_scenario :
    makeMoveByte 12 15 = 207 ∧
    (decodeMoveWithPosition 12 15 207 startingPosition).toOption.map
      (fun r => (r.1.fromSq.toAlgebraic, r.1.toSq.toAlgebraic, r.1.piece.piece_type,
        r.1.promotion, r.1.captured_piece, r.2)) =
      some ("e2", "e4", PieceType.Pawn, none, none, "e4") :=
  ⟨by decide, by rfl⟩

/-- Claim C8: end_variation at depth 0 is an error; at depth 1 with a
popped list it attaches the wrapped variation to the last main-line node
and the depth becomes 0; at depth d ≥ 2 it attaches the wrapped
variation to the last node of the parent variation's list and decrements
the depth by one. -/
theorem C8_end_variation (main ms ps : List GameNode) (n pn : GameNode)
    (inner : List GameNode) (stack stack1 : List (List GameNode)) (d : Nat) :
    (VariationTree.endVariation (.mk main 0 stack) =
      .error "Cannot end variation - not in a variation") ∧
    (VariationTree.endVariation (.mk (ms ++ [n]) 1 (stack1 ++ [inner])) =
      .ok (.mk (ms ++ [n.attachVariation (.mk inner 0 [])]) 0 stack1)) ∧
    (2 ≤ d →
      VariationTree.endVariation (.mk main d ((stack1 ++ [ps ++ [pn]]) ++ [inner])) =
        .ok (.mk main (d - 1)
          (stack1 ++ [ps ++ [pn.attachVariation (.mk inner 0 [])]]))) := by
  refine ⟨?_, ?_, ?_⟩
  · simp [VariationTree.endVariation]
  · simp [VariationTree.endVariation, List.getLast?_concat, List.dropLast_concat]
  · intro hd
    have h0 : d ≠ 0 := by omega
    have h1 : d ≠ 1 := by omega
    simp [VariationTree.endVariation, List.getLast?_concat, List.dropLast_concat, h0, h1]

/-- Witness for C8_end_variation at depth 2 with a one-node parent
variation. -/
theorem C8_witness :
    VariationTree.endVariation
      (.mk [] 2 (([] ++ [[] ++ [sampleNodeA]]) ++ [[sampleNodeB]])) =
      .ok (.mk [] 1 ([] ++ [[] ++ [sampleNodeA.attachVariation (.mk [sampleNodeB] 0 [])]])) :=
  (C8_end_variation [] [] [] sampleNodeA sampleNodeA [sampleNodeB] [] [] 2).2.2 (by decide)

/-- Claim C9 (counterexample): with a bishop on c1 (square 2), move
values 13 and 5 — which differ exactly in bit 3 — both decode to f1
(square 5): same rank as the source, different file, hence not a
diagonal destination, and bit 3 selects nothing. -/
theorem C9_counterexample :
    decodeBishopTarget 13 ⟨2⟩ = .ok ⟨5⟩ ∧ decodeBishopTarget 5 ⟨2⟩ = .ok ⟨5⟩ ∧
    Square.rank ⟨5⟩ = Square.rank ⟨2⟩ ∧ Square.file ⟨5⟩ ≠ Square.file ⟨2⟩ := by decide

/-- Claim C9 (amended): the bishop target decoder sets the destination
file to value & 7 and keeps the source square's rank; bit 3 of the move
value does not affect the computed destination. -/
theorem C9_amended :
    (∀ v fromSq sq, decodeBishopTarget v fromSq = .ok sq →
      sq.file = v &&& 7 ∧ sq.rank = fromSq.rank) ∧
    (∀ v fromSq, v < 16 →
      decodeBishopTarget v fromSq = decodeBishopTarget (v &&& 7) fromSq) := by
  constructor
  · intro v fromSq sq hok
    obtain ⟨hf, hr, hval⟩ := squareNewOk _ _ _ hok
    constructor
    · simp only [Square.file] at *
      omega
    · simp only [Square.rank] at *
      omega
  · intro v fromSq hv
    interval_cases v <;> rfl

/-- Witness for C9_amended at the counterexample's input. -/
theorem C9_amended_witness :
    (Square.file ⟨5⟩ = 13 &&& 7 ∧ Square.rank ⟨5⟩ = Square.rank ⟨2⟩) ∧
    decodeBishopTarget 13 ⟨2⟩ = decodeBishopTarget (13 &&& 7) ⟨2⟩ :=
  ⟨C9_amended.1 13 ⟨2⟩ ⟨5⟩ (by decide), C9_amended.2 13 ⟨2⟩ (by decide)⟩

/-- Claim C10: end_variation at depth d ≥ 1 with an empty enclosing line
(empty main line at depth 1; empty parent variation list at depth ≥ 2)
still succeeds and decrements the depth, and the popped variation is
attached nowhere — it vanishes from the resulting tree with no error. -/
theorem C10_discard (inner main : List GameNode) (stack1 : List (List GameNode)) (d : Nat) :
    (VariationTree.endVariation (.mk [] 1 (stack1 ++ [inner])) = .ok (.mk [] 0 stack1)) ∧
    (2 ≤ d →
      VariationTree.endVariation (.mk main d ((stack1 ++ [[]]) ++ [inner])) =
        .ok (.mk main (d - 1) (stack1 ++ [[]]))) := by
  constructor
  · simp [VariationTree.endVariation, List.getLast?_concat, List.dropLast_concat]
  · intro hd
    have h0 : d ≠ 0 := by omega
    have h1 : d ≠ 1 := by omega
    simp [VariationTree.endVariation, List.getLast?_concat, List.dropLast_concat, h0, h1]

/-- Witness for C10_discard at depth 2 with an empty parent variation:
the popped one-node variation is discarded. -/
theorem C10_witness :
    VariationTree.endVariation (.mk [sampleNodeA] 2 (([] ++ [[]]) ++ [[sampleNodeB]])) =
      .ok (.mk [sampleNodeA] 1 ([] ++ [[]])) :=
  (C10_discard [sampleNodeB] [sampleNodeA] [] 2).2 (by decide)

end Scid
